import Mathlib

/-!
Shallow embedding of the NLEIS-Toolbox core (files src/nleis/nleis_fitting.py
and src/nleis/nleis_elements_pair.py) together with proofs about the claims
of the natural-language specification.

Conventions of the embedding:
* Python floats are modelled as exact numbers: rationals where the code only
  moves values around (parameter partitioning, bound normalization) and real
  or complex numbers where the code computes impedances.
* NumPy arrays over the frequency grid are modelled as Lean lists; vectorized
  arithmetic becomes a map over the list.
* Fallible code (list indexing, unbound local names) is modelled in the
  Except monad.
* np.linalg.solve is modelled by multiplication with the matrix inverse,
  which agrees with the solver exactly when the matrix is invertible.
-/

/- ===================================================================
   Part 1: nleis_fitting.py, the computable layer.
   =================================================================== -/

/-- Values that can appear in a bounds vector handed to simul_fit: a finite
float (modelled as a rational) or one of the two infinities.  NaN never
appears in the runs the claims are about. -/
inductive BVal where
  | fin (q : ℚ)
  | pinf
  | ninf
deriving DecidableEq

/-- Model of np.isinf on one bound entry. -/
def isinfB : BVal → Bool
  | .fin _ => false
  | _ => true

/-- Model of np.where(bounds[0] == -np.inf, -1e10, bounds[0]) on one entry:
only the value -inf is replaced (by -1e10). -/
def capLB : BVal → BVal
  | .ninf => .fin (-(10 ^ 10))
  | x => x

/-- Model of np.where(bounds[1] == np.inf, 1e10, bounds[1]) on one entry:
only the value +inf is replaced (by 1e10). -/
def capUB : BVal → BVal
  | .pinf => .fin (10 ^ 10)
  | x => x

/-- Elementwise float division of two bound entries.  The finite/finite case
is the only one reachable after capping in the runs the claims are about;
the remaining cases are modelled loosely (NumPy would produce non-finite
floats there). -/
def divB : BVal → BVal → BVal
  | .fin a, .fin b => .fin (a / b)
  | .ninf, .fin _ => .ninf
  | .pinf, .fin _ => .pinf
  | _, _ => .fin 0

/-- Division of a finite float by a bound entry (used for the initial guess:
initial_guess = initial_guess/ub).  A non-finite divisor gives 0, as for
floats. -/
def qdivB (q : ℚ) : BVal → ℚ
  | .fin b => q / b
  | _ => 0

/-- Transcription of the bound-normalization front end of simul_fit
(src/nleis/nleis_fitting.py lines 152-170) for the case where the caller
supplies a bounds tuple (the bounds=None branch calls set_default_bounds,
which lives in a module that is not part of the sources).  Returns the
normalized lower bounds, upper bounds and initial guess, together with the
vector ub used to rescale the optimizer output.  When param_norm is true
and no bound is infinite, the code reaches the line `bounds = bounds/ub`
with the local name ub never assigned (the assignment `ub = bounds[1]` is
commented out in the source), so Python raises NameError; this is modelled
as an error. -/
def simulFitPrep (lb0 ub0 : List BVal) (paramNorm : Bool) (guess : List ℚ) :
    Except String (List BVal × List BVal × List ℚ × List BVal) :=
  if paramNorm then
    if lb0.any isinfB || ub0.any isinfB then
      let lb := lb0.map capLB
      let ub := ub0.map capUB
      .ok (List.zipWith divB lb ub, List.zipWith divB ub ub,
           List.zipWith qdivB guess ub, ub)
    else .error "NameError: name ub is not defined"
  else
    let ub : List BVal := List.replicate ub0.length (.fin 1)
    .ok (lb0, ub0, List.zipWith qdivB guess ub, ub)

/-- Characters stripped by get_element_from_name. -/
def excludedChars : List Char := "0123456789_".toList

/-- Transcription of get_element_from_name
(src/nleis/nleis_elements_pair.py lines 2112-2114): remove digits and
underscores from an element name. -/
def get_element_from_name (name : String) : String :=
  String.mk (name.toList.filter (fun c => !(excludedChars.contains c)))

/-- The num_params registry entries created by the element decorators of
src/nleis/nleis_elements_pair.py.  Elements of the underlying impedance.py
package are not part of the sources and are left out; looking one of them
up is modelled as a registry miss. -/
def numParams : String → Option ℕ
  | "RCO" => some 2
  | "RCOn" => some 3
  | "RCD" => some 4
  | "RCDn" => some 6
  | "RCS" => some 4
  | "RCSn" => some 6
  | "TPO" => some 3
  | "TPOn" => some 4
  | "TDP" => some 5
  | "TDPn" => some 7
  | "TDS" => some 5
  | "TDSn" => some 7
  | "TDC" => some 5
  | "TDCn" => some 7
  | "TLM" => some 6
  | "TLMn" => some 8
  | "mTi" => some 6
  | "TLMS" => some 8
  | "TLMSn" => some 11
  | "mTiS" => some 8
  | "mTiSn" => some 11
  | "TLMD" => some 8
  | "TLMDn" => some 11
  | "mTiD" => some 8
  | "mTiDn" => some 11
  | _ => none

/-- State threaded through the loop of individual_parameters: the two output
lists and the running index into the combined parameter vector. -/
structure PState where
  p1 : List ℚ
  p2 : List ℚ
  index : ℕ
deriving DecidableEq

/-- Loop over a list threading an Except-valued step, stopping at the first
error; this models the Python for loops whose bodies can raise. -/
def exceptFold (f : PState → α → Except String PState) : PState → List α → Except String PState
  | st, [] => .ok st
  | st, a :: as =>
    match f st a with
    | .error e => .error e
    | .ok st2 => exceptFold f st2 as

/-- The qualified linear (EIS) name built for sub-slot j of an element in
individual_parameters: elem.replace("n","") + "_j" when the linear arity is
greater than one and j is below it, None when j is a nonlinear-only slot,
and the bare element name when the linear arity is one. -/
def eisName (elem : String) (eisNum j : ℕ) : Option String :=
  if 1 < eisNum then
    if j < eisNum then
      some (String.mk (elem.toList.filter (fun c => c != 'n')) ++ "_" ++ toString j)
    else none
  else some elem

/-- The qualified nonlinear (2nd-NLEIS) name built for sub-slot j of an
element in individual_parameters. -/
def nleisName (elem : String) (eisNum j : ℕ) : String :=
  if 1 < eisNum then elem ++ "_" ++ toString j else elem

/-- One iteration of the inner j-loop of individual_parameters
(src/nleis/nleis_fitting.py lines 412-439).  A slot held constant (in the
linear constants, or in the nonlinear constants) is skipped entirely:
nothing is appended to either list and the index does not advance.
Otherwise parameters[index] is consumed (raising IndexError when the index
is out of range) and distributed to p1 and/or p2 according to the arities. -/
def paramStep (c1 c2 : List String) (params : List ℚ) (elem : String)
    (eisNum nleisNum j : ℕ) (st : PState) : Except String PState :=
  let eisCur := eisName elem eisNum j
  let nleisCur := nleisName elem eisNum j
  if (match eisCur with | some s => c1.contains s | none => false) then .ok st
  else if c2.contains nleisCur &&
      !(match eisCur with | some s => c1.contains s | none => false) then .ok st
  else
    match params[st.index]? with
    | none => .error "IndexError: list index out of range"
    | some v =>
      if eisNum = 1 then .ok ⟨st.p1 ++ [v], st.p2, st.index + 1⟩
      else if 1 < eisNum ∧ j < eisNum then
        if eisNum < nleisNum then .ok ⟨st.p1 ++ [v], st.p2 ++ [v], st.index + 1⟩
        else .ok ⟨st.p1 ++ [v], st.p2, st.index + 1⟩
      else .ok ⟨st.p1, st.p2 ++ [v], st.index + 1⟩

/-- Processing of one element occurrence in individual_parameters
(src/nleis/nleis_fitting.py lines 399-439): look up the nonlinear arity,
determine the linear arity (dropping the trailing n for T.../RC... names
containing an n), then run the j-loop. -/
def processElem (c1 c2 : List String) (params : List ℚ) (st : PState)
    (elem : String) : Except String PState :=
  let raw := get_element_from_name elem
  match numParams raw with
  | none => .error ("ElementError: " ++ raw)
  | some nleisNum =>
    if (elem.toList.head? == some 'T' || elem.toList.take 2 == ['R', 'C'])
        && elem.toList.contains 'n' then
      match numParams (String.mk raw.toList.dropLast) with
      | none => .error ("ElementError: " ++ String.mk raw.toList.dropLast)
      | some eisNum =>
        exceptFold (fun s j => paramStep c1 c2 params elem eisNum nleisNum j s)
          st (List.range nleisNum)
    else
      exceptFold (fun s j => paramStep c1 c2 params elem nleisNum nleisNum j s)
        st (List.range nleisNum)

/-- The element-iteration core of individual_parameters: fold processElem
over the element occurrences of the edited circuit, starting from empty
output lists and index 0.  The function returns whatever state the loop
ends in; no check of len(parameters) == index is performed afterwards. -/
def individualParametersCore (c1 c2 : List String) (params : List ℚ)
    (elems : List String) : Except String PState :=
  exceptFold (processElem c1 c2 params) ⟨[], [], 0⟩ elems

/-- Modelled from the spec: extract_circuit_elements is imported from a
module that is not part of the sources; per the external-interface section
of the spec the circuit minilanguage joins element names with a dash and
may wrap branches in the unary d(...) operator, so the element occurrences
are obtained by stripping the wrapper and splitting on the dash. -/
def extract_circuit_elements (circuit : String) : List String :=
  (((circuit.replace "d(" "").replace ")" "").splitOn "-").filter (fun s => s ≠ "")

/-- Transcription of individual_parameters (src/nleis/nleis_fitting.py
lines 363-441): an empty circuit returns two empty lists, otherwise the
element loop runs and the two accumulated lists are returned. -/
def individual_parameters (edited : String) (params : List ℚ)
    (c1 c2 : List String) : Except String (List ℚ × List ℚ) :=
  if edited = "" then .ok ([], [])
  else
    match individualParametersCore c1 c2 params (extract_circuit_elements edited) with
    | .error e => .error e
    | .ok st => .ok (st.p1, st.p2)

/- ===================================================================
   Part 2: nleis_elements_pair.py, the numeric layer.
   =================================================================== -/

noncomputable section

open Complex

/-- Python int() applied to a real value: truncation toward zero. -/
def truncInt (x : ℝ) : ℤ := if x < 0 then ⌈x⌉ else ⌊x⌋

/-- The segment count N = int(p[k]) read from a parameter slot.  The claims
only concern positive segment counts; a negative value is clamped to zero
here (the Python code would fail later in that regime anyway). -/
def pyN (x : ℝ) : ℕ := (truncInt x).toNat

/-- NumPy ordered comparison of two complex values: lexicographic on the
pair (real part, imaginary part).  This is the comparison the clamp guards
`if x < 100` perform on complex arguments. -/
def pyLt (x y : ℂ) : Prop := x.re < y.re ∨ (x.re = y.re ∧ x.im < y.im)

instance pyLtDec (x y : ℂ) : Decidable (pyLt x y) := by
  unfold pyLt; infer_instance

/-- The clamp idiom of the porous-electrode elements: keep the value g x of
the hyperbolic (or Bessel) term while the complex argument compares below
100 under the NumPy ordering, and substitute the large sentinel otherwise. -/
def clampAt (g : ℂ → ℂ) (sentinel : ℂ) (x : ℂ) : ℂ :=
  if pyLt x 100 then g x else sentinel

/-- The Faraday constant as used at the top of the module (scipy value). -/
def Faraday : ℝ := 96485.33212331001

/-- The molar gas constant as used at the top of the module (scipy value). -/
def Rgas : ℝ := 8.31446261815324

/-- The temperature constant T = 298.15 of the module header. -/
def Tconst : ℝ := 298.15

/-- The literal constant f = 96485.3321233100184/(8.31446261815324*298)
(unit 1/V) rebound locally inside the nonlinear diffusion elements. -/
def fV : ℝ := 96485.3321233100184 / (8.31446261815324 * 298)

/-- Principal complex square root, modelling np.sqrt and `** (1/2)` on
complex arguments. -/
def csqrt (z : ℂ) : ℂ := z ^ (1 / 2 : ℂ)

/-- Transcription of RCO (charge-transfer Randles element), one frequency:
Rct / (1 + i omega Rct Cdl). -/
def RCO (Rct Cdl fr : ℝ) : ℂ :=
  let ω : ℝ := 2 * Real.pi * fr
  let ωs : ℝ := ω * Rct * Cdl
  (Rct : ℂ) / (1 + (ωs : ℝ) * I)

/-- Transcription of RCOn (nonlinear charge-transfer Randles element), one
frequency. -/
def RCOn (Rct Cdl ε fr : ℝ) : ℂ :=
  let ω : ℝ := 2 * Real.pi * fr
  let ωs : ℝ := ω * Rct * Cdl
  ((-ε * Faraday / (Rgas * Tconst) * Rct ^ 2 : ℝ) : ℂ) /
    (1 + 4 * (ωs : ℝ) * I - 5 * ((ωs : ℝ) : ℂ) ^ 2 - 2 * ((ωs : ℝ) : ℂ) ^ 3 * I)

/-- Transcription of RCD (Randles element with bounded thin-film diffusion),
one frequency. -/
def RCD (Rct Cdl Aw τd fr : ℝ) : ℂ :=
  let ω : ℝ := 2 * Real.pi * fr
  let Zd : ℂ := (Aw : ℂ) / (csqrt (I * ω * τd) * Complex.tanh (csqrt (I * ω * τd)))
  let tau : ℝ := ω * Rct * Cdl
  (Rct : ℂ) / ((Rct : ℂ) / ((Rct : ℂ) + Zd) + I * (tau : ℝ))

/-- Transcription of RCDn (nonlinear Randles element with bounded thin-film
diffusion), one frequency. -/
def RCDn (Rct Cdl Aw τd κ e fr : ℝ) : ℂ :=
  let ω : ℝ := 2 * Real.pi * fr
  let Zd1 : ℂ := (Aw : ℂ) / (csqrt (I * ω * τd) * Complex.tanh (csqrt (I * ω * τd)))
  let Zd2 : ℂ := (Aw : ℂ) / (csqrt (I * 2 * ω * τd) * Complex.tanh (csqrt (I * 2 * ω * τd)))
  let tau : ℝ := ω * Rct * Cdl
  let y1 : ℂ := (Rct : ℂ) / (Zd1 + Rct)
  let y2 : ℂ := Zd1 / (Zd1 + Rct)
  let Z1 : ℂ := (Rct : ℂ) / (y1 + I * (tau : ℝ))
  let c : ℂ := ((Rct : ℂ) * κ * y2 ^ 2 - (Rct : ℂ) * e * fV * y1 ^ 2) / (Zd2 + Rct)
  c * Z1 ^ 2 / (2 * (tau : ℝ) * I + (Rct : ℂ) / (Zd2 + Rct))

/-- Transcription of RCS (Randles element with spherical diffusion), one
frequency. -/
def RCS (Rct Cdl Aw τd fr : ℝ) : ℂ :=
  let ω : ℝ := 2 * Real.pi * fr
  let s : ℂ := csqrt (I * ω * τd)
  let Zd : ℂ := (Aw : ℂ) * Complex.tanh s / (s - Complex.tanh s)
  let tau : ℝ := ω * Rct * Cdl
  (Rct : ℂ) / ((Rct : ℂ) / ((Rct : ℂ) + Zd) + I * (tau : ℝ))

/-- Transcription of RCSn (nonlinear Randles element with spherical
diffusion), one frequency. -/
def RCSn (Rct Cdl Aw τd κ e fr : ℝ) : ℂ :=
  let ω : ℝ := 2 * Real.pi * fr
  let s1 : ℂ := csqrt (I * ω * τd)
  let s2 : ℂ := csqrt (I * 2 * ω * τd)
  let Zd1 : ℂ := (Aw : ℂ) * Complex.tanh s1 / (s1 - Complex.tanh s1)
  let Zd2 : ℂ := (Aw : ℂ) * Complex.tanh s2 / (s2 - Complex.tanh s2)
  let tau : ℝ := ω * Rct * Cdl
  let y1 : ℂ := (Rct : ℂ) / (Zd1 + Rct)
  let y2 : ℂ := Zd1 / (Zd1 + Rct)
  let Z1 : ℂ := (Rct : ℂ) / (y1 + I * (tau : ℝ))
  let c : ℂ := ((Rct : ℂ) * κ * y2 ^ 2 - (Rct : ℂ) * e * fV * y1 ^ 2) / (Zd2 + Rct)
  c * Z1 ^ 2 / (2 * (tau : ℝ) * I + (Rct : ℂ) / (Zd2 + Rct))

/-- One step of the backward continued-fraction ladder reduction:
Req := 1/(1/(Req+Rpore) + 1/Zu). -/
def ladderStep (Zu Rpore Req : ℂ) : ℂ := 1 / (1 / (Req + Rpore) + 1 / Zu)

/-- The ladder reduction loop `for i in range(1, N)` of TLM/mTi and their
variants: starting from Req = Zu, apply the step N-1 times. -/
def ladderReq (Zu Rpore : ℂ) (N : ℕ) : ℂ := (ladderStep Zu Rpore)^[N - 1] Zu

/-- Model of np.linalg.solve A b: multiplication of b by the inverse of A.
For invertible A this is exactly the solution of A x = b; for singular A
the Python call would raise LinAlgError. -/
def npSolve {n : ℕ} (A : Matrix (Fin n) (Fin n) ℂ) (b : Fin n → ℂ) : Fin n → ℂ :=
  A⁻¹.mulVec b

/-- The per-frequency matrix built by mTi/mTiS/mTiD (src lines 1334-1346):
start from Zu on the diagonal, overwrite entry (i,j) for j < i with
-(i-j)*Rpore, then add Rpore*(i+1) to every entry of row i. -/
def mTiA (Zu Rpore : ℂ) (N : ℕ) : Matrix (Fin N) (Fin N) ℂ :=
  Matrix.of fun i j =>
    (if (j : ℕ) < (i : ℕ) then -((((i : ℕ) - (j : ℕ) : ℕ)) : ℂ) * Rpore
     else if i = j then Zu else 0) +
    (((i : ℕ) + 1 : ℕ) : ℂ) * Rpore

/-- The per-frequency current-fraction row of mTi and its variants: the
dense solution of mTiA x = (Req, ..., Req), listed per segment. -/
def mTiPoint (Zu Rpore Req : ℂ) (N : ℕ) : List ℂ :=
  (List.finRange N).map (npSolve (mTiA Zu Rpore N) (fun _ => Req))

/-- Segment count N = int(p[5]) of the six/eight-parameter TLM family. -/
def TLM_N (p : List ℝ) : ℕ := pyN (p.getD 5 0)

/-- Per-segment pore resistance Rpore = p[0]/N of TLM/TLMn/mTi. -/
def TLM_Rpore (p : List ℝ) : ℝ := p.getD 0 0 / TLM_N p

/-- Unit impedance Zu = RCO(bulk) + RCO(surface) of TLM/TLMn/mTi at one
frequency, with the per-segment parameter scaling of the source. -/
def TLM_Zu (p : List ℝ) (fr : ℝ) : ℂ :=
  RCO (p.getD 1 0 * TLM_N p) (p.getD 2 0 / TLM_N p) fr +
  RCO (p.getD 3 0 * TLM_N p) (p.getD 4 0 / TLM_N p) fr

/-- Transcription of TLM (src lines 1119-1164): the ladder reduction of N
units of unit impedance Zu with per-segment series resistance Rpore,
evaluated on every frequency of the grid. -/
def TLM (p : List ℝ) (fl : List ℝ) : List ℂ :=
  fl.map fun fr => ladderReq (TLM_Zu p fr) ((TLM_Rpore p : ℝ) : ℂ) (TLM_N p)

/-- Transcription of mTi (src lines 1274-1351): ladder reduction giving
Req_total = Req + Rpore, then the per-frequency dense solve for the
current-fraction row. -/
def mTi (p : List ℝ) (fr : ℝ) : List ℂ :=
  mTiPoint (TLM_Zu p fr) ((TLM_Rpore p : ℝ) : ℂ)
    (ladderReq (TLM_Zu p fr) ((TLM_Rpore p : ℝ) : ℂ) (TLM_N p) + ((TLM_Rpore p : ℝ) : ℂ))
    (TLM_N p)

/-- The row [N-1, N-2, ..., 1] produced by np.arange(N-1, 0, -1). -/
def arangeRev (n : ℕ) : List ℤ := (List.range n).map (fun j => (n : ℤ) - (j : ℤ))

/-- One pass of the inner loop `for j in range(0, N-1-i): A1[j] -= 1` on the
working row A1. -/
def subOnce (N i : ℕ) (A1 : List ℤ) : List ℤ :=
  A1.mapIdx (fun j x => if j < N - 1 - i then x - 1 else x)

/-- The stacked integer rows of the coupling matrix A built by the loop
`for i in range(0, N-2)` of the second-harmonic solvers (src lines
1242-1248): row 0 is np.arange(N-1, 0, -1) and each further row is obtained
from the previous one by the decrement pass. -/
def buildRows (N : ℕ) : List (List ℤ) :=
  ((List.range (N - 2)).foldl
    (fun st i =>
      let A1n := subOnce N i st.2
      (st.1 ++ [A1n], A1n))
    ([arangeRev (N - 1)], arangeRev (N - 1))).1

/-- Entry (r,c) of the Rpore-scaled coupling matrix A after padding with a
zero column and a zero row (src lines 1249-1251). -/
def Aent (Rpore : ℂ) (N r c : ℕ) : ℂ :=
  if r < N - 1 ∧ c < N - 1 then ((((buildRows N).getD r []).getD c 0 : ℤ) : ℂ) * Rpore
  else 0

/-- Entry (r,c) of the doubled-frequency matrix A2 (src lines 1252-1257):
rows 0..N-2 select the difference between the current path of segment 0 and
segment N-1-r, scaled by Z12t; the padded last row is zero. -/
def A2ent (Z12t : ℂ) (N r c : ℕ) : ℂ :=
  if r < N - 1 then Z12t * ((if c = 0 then 1 else 0) - (if c = N - 1 - r then 1 else 0))
  else 0

/-- Entry (r,c) of the conservation matrix A3 (src line 1259): a final row
of ones below N-1 zero rows; the entry does not depend on the column. -/
def A3ent (N r _c : ℕ) : ℂ := if r = N - 1 then 1 else 0

/-- The padded N-by-N matrix Ax = A2 + A + A3 of the second-harmonic linear
system (src line 1261). -/
def AxM (Rpore Z12t : ℂ) (N : ℕ) : Matrix (Fin N) (Fin N) ℂ :=
  Matrix.of fun i j =>
    A2ent Z12t N (i : ℕ) (j : ℕ) + Aent Rpore N (i : ℕ) (j : ℕ) + A3ent N (i : ℕ) (j : ℕ)

/-- The per-frequency general (dense-solve) branch of the second-harmonic
solvers (src lines 1238-1269): build Ax and the forcing vector b (zeros in
the padded last row, Ii[-1]^2 - Ii[i]^2 in the first N-1 rows), solve
Ax I2 = -b Z2, and aggregate Z2 Ii[0]^2 + I2[-1] Z12t. -/
def TLMnPoint (Rpore Z12t Z2 : ℂ) (N : ℕ) (Ii : List ℂ) : ℂ :=
  match N with
  | 0 => 0
  | Nat.succ m =>
    let b : Fin (m + 1) → ℂ :=
      fun i => if (i : ℕ) < m then (Ii.getLastD 0) ^ 2 - (Ii.getD i 0) ^ 2 else 0
    let I2 := npSolve (AxM Rpore Z12t (m + 1)) (fun i => -(b i) * Z2)
    Z2 * (Ii.getD 0 0) ^ 2 + I2 (Fin.last m) * Z12t

/-- The closed-form N=2 shortcut of the second-harmonic solvers (src lines
1233-1237). -/
def TLMnN2 (Rpore Z1 Z12t Z2 : ℂ) : ℂ :=
  (Z1 ^ 2 / (2 * Z1 + Rpore) ^ 2 +
    (Z12t * Rpore + Rpore ^ 2) / ((2 * Z12t + Rpore) * (2 * Z1 + Rpore))) * Z2

/-- Second-harmonic source term Z2 = RCOn(bulk) + RCOn(surface) of TLMn at
one frequency. -/
def TLMn_Z2 (p : List ℝ) (fr : ℝ) : ℂ :=
  RCOn (p.getD 1 0 * TLM_N p) (p.getD 2 0 / TLM_N p) (p.getD 6 0) fr +
  RCOn (p.getD 3 0 * TLM_N p) (p.getD 4 0 / TLM_N p) (p.getD 7 0) fr

/-- Doubled-frequency unit impedance Z12t of TLMn at one frequency. -/
def TLMn_Z12t (p : List ℝ) (fr : ℝ) : ℂ :=
  RCO (p.getD 1 0 * TLM_N p) (p.getD 2 0 / TLM_N p) (2 * fr) +
  RCO (p.getD 3 0 * TLM_N p) (p.getD 4 0 / TLM_N p) (2 * fr)

/-- Transcription of TLMn (src lines 1169-1270): closed forms for N=1 and
N=2, the dense-solve branch otherwise, with the first-harmonic current
fractions I1 = mTi(p[0:6], f). -/
def TLMn (p : List ℝ) (fl : List ℝ) : List ℂ :=
  fl.map fun fr =>
    if TLM_N p = 1 then TLMn_Z2 p fr
    else if TLM_N p = 2 then
      TLMnN2 ((TLM_Rpore p : ℝ) : ℂ) (TLM_Zu p fr) (TLMn_Z12t p fr) (TLMn_Z2 p fr)
    else
      TLMnPoint ((TLM_Rpore p : ℝ) : ℂ) (TLMn_Z12t p fr) (TLMn_Z2 p fr) (TLM_N p)
        (mTi (p.take 6) fr)

/-- Segment count N = int(p[7]) of the TLMS family. -/
def TLMS_N (p : List ℝ) : ℕ := pyN (p.getD 7 0)

/-- Per-segment pore resistance of the TLMS family. -/
def TLMS_Rpore (p : List ℝ) : ℝ := p.getD 0 0 / TLMS_N p

/-- Unit impedance Zu = RCS(bulk) + RCO(surface) of the TLMS family at one
frequency. -/
def TLMS_Zu (p : List ℝ) (fr : ℝ) : ℂ :=
  RCS (p.getD 1 0 * TLMS_N p) (p.getD 2 0 / TLMS_N p) (p.getD 3 0 * TLMS_N p)
    (p.getD 4 0) fr +
  RCO (p.getD 5 0 * TLMS_N p) (p.getD 6 0 / TLMS_N p) fr

/-- Transcription of mTiS (src lines 1533-1615): as mTi with the spherical
diffusion Randles bulk element. -/
def mTiS (p : List ℝ) (fr : ℝ) : List ℂ :=
  mTiPoint (TLMS_Zu p fr) ((TLMS_Rpore p : ℝ) : ℂ)
    (ladderReq (TLMS_Zu p fr) ((TLMS_Rpore p : ℝ) : ℂ) (TLMS_N p) + ((TLMS_Rpore p : ℝ) : ℂ))
    (TLMS_N p)

/-- Second-harmonic source term Z2 of TLMSn at one frequency. -/
def TLMSn_Z2 (p : List ℝ) (fr : ℝ) : ℂ :=
  RCSn (p.getD 1 0 * TLMS_N p) (p.getD 2 0 / TLMS_N p) (p.getD 3 0 * TLMS_N p)
    (p.getD 4 0) (p.getD 8 0) (p.getD 9 0) fr +
  RCOn (p.getD 5 0 * TLMS_N p) (p.getD 6 0 / TLMS_N p) (p.getD 10 0) fr

/-- Doubled-frequency unit impedance Z12t of TLMSn at one frequency. -/
def TLMSn_Z12t (p : List ℝ) (fr : ℝ) : ℂ :=
  RCS (p.getD 1 0 * TLMS_N p) (p.getD 2 0 / TLMS_N p) (p.getD 3 0 * TLMS_N p)
    (p.getD 4 0) (2 * fr) +
  RCO (p.getD 5 0 * TLMS_N p) (p.getD 6 0 / TLMS_N p) (2 * fr)

/-- Transcription of TLMSn (src lines 1420-1529): same solver skeleton as
TLMn with the spherical-diffusion element pair and I1 = mTiS(p[0:8], f). -/
def TLMSn (p : List ℝ) (fl : List ℝ) : List ℂ :=
  fl.map fun fr =>
    if TLMS_N p = 1 then TLMSn_Z2 p fr
    else if TLMS_N p = 2 then
      TLMnN2 ((TLMS_Rpore p : ℝ) : ℂ) (TLMS_Zu p fr) (TLMSn_Z12t p fr) (TLMSn_Z2 p fr)
    else
      TLMnPoint ((TLMS_Rpore p : ℝ) : ℂ) (TLMSn_Z12t p fr) (TLMSn_Z2 p fr) (TLMS_N p)
        (mTiS (p.take 8) fr)

/-- Segment count N = int(p[7]) of the TLMD family. -/
def TLMD_N (p : List ℝ) : ℕ := pyN (p.getD 7 0)

/-- Per-segment pore resistance of the TLMD family. -/
def TLMD_Rpore (p : List ℝ) : ℝ := p.getD 0 0 / TLMD_N p

/-- Unit impedance Zu = RCD(bulk) + RCO(surface) of the TLMD family at one
frequency. -/
def TLMD_Zu (p : List ℝ) (fr : ℝ) : ℂ :=
  RCD (p.getD 1 0 * TLMD_N p) (p.getD 2 0 / TLMD_N p) (p.getD 3 0 * TLMD_N p)
    (p.getD 4 0) fr +
  RCO (p.getD 5 0 * TLMD_N p) (p.getD 6 0 / TLMD_N p) fr

/-- Transcription of mTiD (src lines 1910-1992): as mTi with the planar
diffusion Randles bulk element. -/
def mTiD (p : List ℝ) (fr : ℝ) : List ℂ :=
  mTiPoint (TLMD_Zu p fr) ((TLMD_Rpore p : ℝ) : ℂ)
    (ladderReq (TLMD_Zu p fr) ((TLMD_Rpore p : ℝ) : ℂ) (TLMD_N p) + ((TLMD_Rpore p : ℝ) : ℂ))
    (TLMD_N p)

/-- Second-harmonic source term Z2 of TLMDn (and mTiDn) at one frequency. -/
def TLMDn_Z2 (p : List ℝ) (fr : ℝ) : ℂ :=
  RCDn (p.getD 1 0 * TLMD_N p) (p.getD 2 0 / TLMD_N p) (p.getD 3 0 * TLMD_N p)
    (p.getD 4 0) (p.getD 8 0) (p.getD 9 0) fr +
  RCOn (p.getD 5 0 * TLMD_N p) (p.getD 6 0 / TLMD_N p) (p.getD 10 0) fr

/-- Doubled-frequency unit impedance Z12t of TLMDn (and mTiDn) at one
frequency. -/
def TLMDn_Z12t (p : List ℝ) (fr : ℝ) : ℂ :=
  RCD (p.getD 1 0 * TLMD_N p) (p.getD 2 0 / TLMD_N p) (p.getD 3 0 * TLMD_N p)
    (p.getD 4 0) (2 * fr) +
  RCO (p.getD 5 0 * TLMD_N p) (p.getD 6 0 / TLMD_N p) (2 * fr)

/-- Transcription of TLMDn (src lines 1798-1906): same solver skeleton as
TLMn with the planar-diffusion element pair and I1 = mTiD(p[0:8], f). -/
def TLMDn (p : List ℝ) (fl : List ℝ) : List ℂ :=
  fl.map fun fr =>
    if TLMD_N p = 1 then TLMDn_Z2 p fr
    else if TLMD_N p = 2 then
      TLMnN2 ((TLMD_Rpore p : ℝ) : ℂ) (TLMD_Zu p fr) (TLMDn_Z12t p fr) (TLMDn_Z2 p fr)
    else
      TLMnPoint ((TLMD_Rpore p : ℝ) : ℂ) (TLMDn_Z12t p fr) (TLMDn_Z2 p fr) (TLMD_N p)
        (mTiD (p.take 8) fr)

/-- Transcription of mTiDn (src lines 1997-2109).  For N = 1 and N = 2 the
function returns arrays of closed-form impedance values.  For N >= 3 the
loop fills the current-distribution array I2, but the final statement is
`return (Z)`, and the local name Z is only ever assigned inside the N == 2
branch, which did not run; Python therefore raises NameError (or, should a
per-frequency Ax be singular, np.linalg.solve raises LinAlgError first).
Either way no value is returned on that path, modelled as an error. -/
def mTiDn (p : List ℝ) (fl : List ℝ) : Except String (List ℂ) :=
  if TLMD_N p = 1 then .ok (fl.map fun fr => TLMDn_Z2 p fr)
  else if TLMD_N p = 2 then
    .ok (fl.map fun fr =>
      TLMnN2 ((TLMD_Rpore p : ℝ) : ℂ) (TLMD_Zu p fr) (TLMDn_Z12t p fr) (TLMDn_Z2 p fr))
  else .error "NameError: name Z is not defined"

/-- Transcription of the electrode-difference operator d (src lines 59-77).
The local z starts as the Python list [0]*n; the two following statements
`z += difference[0]` and `z += -difference[-1]` call list.__iadd__, which
extends the list with the elements of the arrays instead of adding
elementwise, so the result is the concatenation of n zeros, the first
branch and the negated last branch. -/
def d (difference : List (List ℂ)) : List ℂ :=
  List.replicate (difference.headD []).length 0 ++ difference.headD [] ++
    (difference.getLastD []).map (fun z => -z)

/-- The argument beta_1 of the hyperbolic terms of TPOn (src line 545). -/
def TPO_b1 (Rpore Rct Cdl fr : ℝ) : ℂ :=
  csqrt (I * (2 * Real.pi * fr : ℝ) * Rpore * Cdl + (Rpore : ℂ) / Rct)

/-- The argument beta_2 of the hyperbolic terms of TPOn (src line 546). -/
def TPO_b2 (Rpore Rct Cdl fr : ℝ) : ℂ :=
  csqrt (I * 2 * (2 * Real.pi * fr : ℝ) * Rpore * Cdl + (Rpore : ℂ) / Rct)

/-- Transcription of TPOn (src lines 493-579), one frequency, with the
clamped hyperbolic terms sinh(b1), sinh(2 b1) and cosh(2 b1). -/
def TPOn (p : List ℝ) (fr : ℝ) : ℂ :=
  let Rpore := p.getD 0 0
  let Rct := p.getD 1 0
  let Cdl := p.getD 2 0
  let e := p.getD 3 0
  let b1 := TPO_b1 Rpore Rct Cdl fr
  let b2 := TPO_b2 Rpore Rct Cdl fr
  let sinh1 := clampAt Complex.sinh (10 ^ 10) b1
  let sinh2 := clampAt (fun x => Complex.sinh (2 * x)) (10 ^ 10) b1
  let cosh2 := clampAt (fun x => Complex.cosh (2 * x)) (10 ^ 10) b1
  let mf := ((Rpore : ℂ) ^ 3 / Rct) * e * (fV : ℝ) / (b1 * sinh1) ^ 2
  let part1 := (b1 / b2) * sinh2 / ((b2 ^ 2 - 4 * b1 ^ 2) * Complex.tanh b2)
  let part2 := -cosh2 / (2 * (b2 ^ 2 - 4 * b1 ^ 2)) - 1 / (2 * b2 ^ 2)
  mf * (part1 + part2)

end

/- ===================================================================
   Part 3: theorems.  First the fitting-layer claims C3, C4, C5 and the
   difference operator claim C6.
   =================================================================== -/

lemma getElem?_append_of_some {l l2 : List ℚ} {n : ℕ} {v : ℚ} (h : l[n]? = some v) :
    (l ++ l2)[n]? = some v := by
  have hn : n < l.length := by
    by_contra hn
    rw [List.getElem?_eq_none (Nat.le_of_not_lt hn)] at h
    exact Option.noConfusion h
  rw [List.getElem?_append_left hn]
  exact h

lemma paramStep_append {c1 c2 : List String} {params extra : List ℚ} {elem : String}
    {eN nN j : ℕ} {st st2 : PState}
    (h : paramStep c1 c2 params elem eN nN j st = .ok st2) :
    paramStep c1 c2 (params ++ extra) elem eN nN j st = .ok st2 := by
  simp only [paramStep] at h ⊢
  split_ifs at h ⊢
  all_goals
    first
    | exact h
    | (cases hg : params[st.index]? with
       | none => rw [hg] at h; exact Except.noConfusion h
       | some v => rw [hg] at h; rw [getElem?_append_of_some hg]; exact h)

lemma exceptFold_paramStep_append {c1 c2 : List String} {params extra : List ℚ}
    {elem : String} {eN nN : ℕ} :
    ∀ (js : List ℕ) (st st2 : PState),
      exceptFold (fun s j => paramStep c1 c2 params elem eN nN j s) st js = .ok st2 →
      exceptFold (fun s j => paramStep c1 c2 (params ++ extra) elem eN nN j s) st js = .ok st2 := by
  intro js
  induction js with
  | nil => intro st st2 h; simpa [exceptFold] using h
  | cons a as ih =>
    intro st st2 h
    unfold exceptFold at h ⊢
    cases hstep : paramStep c1 c2 params elem eN nN a st with
    | error e => rw [hstep] at h; exact Except.noConfusion h
    | ok s2 =>
      rw [hstep] at h
      rw [paramStep_append hstep]
      exact ih s2 st2 h

lemma processElem_append {c1 c2 : List String} {params extra : List ℚ}
    {elem : String} {st st2 : PState}
    (h : processElem c1 c2 params st elem = .ok st2) :
    processElem c1 c2 (params ++ extra) st elem = .ok st2 := by
  simp only [processElem] at h ⊢
  cases hn : numParams (get_element_from_name elem) with
  | none => rw [hn] at h; exact Except.noConfusion h
  | some nleisNum =>
    simp only [hn] at h ⊢
    by_cases hcond : ((elem.toList.head? == some 'T' || elem.toList.take 2 == ['R', 'C'])
        && elem.toList.contains 'n') = true
    · rw [if_pos hcond] at h; rw [if_pos hcond]
      cases he : numParams (String.mk (get_element_from_name elem).toList.dropLast) with
      | none => rw [he] at h; exact Except.noConfusion h
      | some eisNum =>
        simp only [he] at h ⊢
        exact exceptFold_paramStep_append _ _ _ h
    · rw [if_neg hcond] at h; rw [if_neg hcond]
      exact exceptFold_paramStep_append _ _ _ h

lemma exceptFold_processElem_append {c1 c2 : List String} {params extra : List ℚ} :
    ∀ (elems : List String) (st st2 : PState),
      exceptFold (processElem c1 c2 params) st elems = .ok st2 →
      exceptFold (processElem c1 c2 (params ++ extra)) st elems = .ok st2 := by
  intro elems
  induction elems with
  | nil => intro st st2 h; simpa [exceptFold] using h
  | cons a as ih =>
    intro st st2 h
    unfold exceptFold at h ⊢
    cases hstep : processElem c1 c2 params st a with
    | error e => rw [hstep] at h; exact Except.noConfusion h
    | ok s2 =>
      rw [hstep] at h
      rw [processElem_append hstep]
      exact ih s2 st2 h

/-- C3: in simul_fit with a caller-supplied bounds tuple and param_norm
enabled, the claimed normalization only happens when the bounds contain an
infinity: then they are capped at the sentinels -1e10/1e10 and everything
is divided by the upper-bound vector (second conjunct).  With all-finite
bounds the code instead reaches `bounds = bounds/ub` with the local name ub
never assigned, raising NameError instead of proceeding to the fit (first
conjunct); the claim is nevertheless what the surrounding code and
documentation intend, so the code, not the claim, is wrong there. -/
theorem C3_simul_fit_bound_normalization :
    simulFitPrep [.fin 0, .fin 0] [.fin 1, .fin 2] true [1 / 2, 1] =
      .error "NameError: name ub is not defined" ∧
    simulFitPrep [.fin 0, .ninf] [.fin 1, .pinf] true [1, 2] =
      .ok ([.fin 0, .fin (-1)], [.fin 1, .fin 1], [1, 1 / 5000000000],
           [.fin 1, .fin (10 ^ 10)]) := by
  constructor
  · rfl
  · norm_num [simulFitPrep, capLB, capUB, divB, qdivB, isinfB]

/-- C4 counterexample: the element loop of individual_parameters finishes
with index 2 on the circuit element list [RCO0], yet a combined parameter
vector of length 3 is accepted without any error: no check of
len(combined_parameters) == index exists in the code. -/
theorem C4_counterexample_no_length_check :
    individualParametersCore [] [] [1, 2, 3] ["RCO0"] = .ok ⟨[1, 2], [], 2⟩ ∧
    ([1, 2, 3] : List ℚ).length ≠ 2 := by
  exact ⟨by rfl, by decide⟩

/-- C4 amended: individual_parameters performs no final check of
len(combined_parameters) == index; a combined vector longer than the
consumed slots is processed exactly as if the surplus entries were absent,
and the run returns normally.  (A vector that is too short still fails, but
only through the IndexError of an out-of-range access, not through the
claimed invariant check.) -/
theorem C4_surplus_parameters_silently_ignored
    (c1 c2 : List String) (params extra : List ℚ) (elems : List String) (st : PState)
    (h : individualParametersCore c1 c2 params elems = .ok st) :
    individualParametersCore c1 c2 (params ++ extra) elems = .ok st := by
  unfold individualParametersCore at h ⊢
  exact exceptFold_processElem_append elems _ st h

/-- Witness for C4: appending a surplus value 3 to an exactly-consumed
vector [1, 2] leaves the result of the partition unchanged. -/
theorem C4_witness :
    individualParametersCore [] [] ([1, 2] ++ [3]) ["RCO0"] = .ok ⟨[1, 2], [], 2⟩ :=
  C4_surplus_parameters_silently_ignored [] [] [1, 2] [3] ["RCO0"] ⟨[1, 2], [], 2⟩ (by rfl)

/-- C5 counterexample: on the single nonlinear element TDSn0 (7 nonlinear
slots, 5 linear slots, no nonlinear constants) with the linear constants
map holding TDS0_0, the code returns p2 = [1,2,3,4,5,6]: only 6 values, one
per non-constant slot.  Under the claim the slot constant in the linear map
would additionally be appended to p2, giving one value for each of the 7
nonlinear slots; instead the `continue` skips the slot for both lists and
consumes no entry of the combined vector. -/
theorem C5_counterexample_constant_slot :
    individualParametersCore ["TDS0_0"] [] [1, 2, 3, 4, 5, 6] ["TDSn0"] =
      .ok ⟨[1, 2, 3, 4], [1, 2, 3, 4, 5, 6], 6⟩ ∧
    numParams "TDSn" = some 7 := by
  exact ⟨by rfl, by rfl⟩

/-- C5 amended: a parameter slot whose qualified linear name is in the
linear constants map is skipped from both output lists and consumes no
entry of the combined vector; symmetrically, a slot whose qualified
nonlinear name is in the nonlinear constants map (and whose linear name is
not in the linear map) is also skipped from both lists. -/
theorem C5_constant_slot_skipped_from_both
    (c1 c2 : List String) (params : List ℚ) (elem : String)
    (eN nN j : ℕ) (st : PState)
    (h : (∃ s, eisName elem eN j = some s ∧ s ∈ c1) ∨
      (nleisName elem eN j ∈ c2 ∧
        ∀ s, eisName elem eN j = some s → s ∉ c1)) :
    paramStep c1 c2 params elem eN nN j st = .ok st := by
  rcases h with ⟨s, hs, hc⟩ | ⟨h2, h1⟩
  · simp [paramStep, hs, hc]
  · cases he : eisName elem eN j with
    | none => simp [paramStep, he, h2]
    | some s => simp [paramStep, he, h2, h1 s he]

/-- Witness for C5: slot 0 of TDSn0 with TDS0_0 held constant in the linear
map leaves the partition state untouched. -/
theorem C5_witness :
    paramStep ["TDS0_0"] [] [] "TDSn0" 5 7 0 ⟨[], [], 0⟩ = .ok ⟨[], [], 0⟩ :=
  C5_constant_slot_skipped_from_both ["TDS0_0"] [] [] "TDSn0" 5 7 0 ⟨[], [], 0⟩
    (Or.inl ⟨"TDS0_0", by rfl, by decide⟩)

/-- C6: the electrode-difference operator d does not return the elementwise
difference of the first and last branch.  Because the local z is a Python
list, the two += statements extend it, so on the input [[1],[2]] the result
is the three-element concatenation [0, 1, -2] rather than the one-element
difference [1 - 2] promised by the docstring (Z2 = Z2_plus - Z2_minus). -/
theorem C6_d_concatenates_instead_of_subtracting :
    d [[(1 : ℂ)], [(2 : ℂ)]] = [0, 1, -2] ∧
    (d [[(1 : ℂ)], [(2 : ℂ)]]).length ≠ ([(1 : ℂ) - 2]).length := by
  exact ⟨by rfl, by decide⟩

/- ===================================================================
   Part 4: helper lemmas for the ladder solvers, then claims C8 and C10.
   =================================================================== -/

lemma getD_finRange_map {n : ℕ} (f : Fin n → ℂ) (i : Fin n) :
    ((List.finRange n).map f).getD (i : ℕ) 0 = f i := by
  have h1 : (i : ℕ) < ((List.finRange n).map f).length := by simp [i.isLt]
  rw [List.getD_eq_getElem _ _ h1]
  simp

lemma npSolve_mulVec {n : ℕ} (A : Matrix (Fin n) (Fin n) ℂ) (b : Fin n → ℂ)
    (h : IsUnit A.det) : A.mulVec (npSolve A b) = b := by
  unfold npSolve
  rw [Matrix.mulVec_mulVec, Matrix.mul_nonsing_inv A h, Matrix.one_mulVec]

lemma npSolve_eq {n : ℕ} (A : Matrix (Fin n) (Fin n) ℂ) (b v : Fin n → ℂ)
    (h : IsUnit A.det) (hv : A.mulVec v = b) : npSolve A b = v := by
  unfold npSolve
  rw [← hv, Matrix.mulVec_mulVec, Matrix.nonsing_inv_mul A h, Matrix.one_mulVec]

/-- C8: when the segment count N = int(p[5]) is 1, the ladder reduction
loop of TLM runs zero times, so TLM returns, at every frequency of the
grid, exactly the unit impedance Zu = RCO(bulk) + RCO(surface) at the
per-segment-scaled parameters. -/
theorem C8_TLM_N1_returns_unit_impedance (p : List ℝ) (fl : List ℝ)
    (hN : truncInt (p.getD 5 0) = 1) :
    TLM p fl = fl.map (TLM_Zu p) := by
  have hn : TLM_N p = 1 := by
    unfold TLM_N pyN
    rw [hN]
    rfl
  unfold TLM
  simp [hn, ladderReq]

/-- Witness for C8 at p = [1,2,3,4,5,1] over the one-point grid [1]. -/
theorem C8_witness :
    TLM [1, 2, 3, 4, 5, 1] [1] = [1].map (TLM_Zu [1, 2, 3, 4, 5, 1]) :=
  C8_TLM_N1_returns_unit_impedance [1, 2, 3, 4, 5, 1] [1]
    (by norm_num [List.getD_cons_succ, List.getD_cons_zero, truncInt])

/-- C10: whenever the segment count N = int(p[7]) is at least 3, mTiDn
never returns the second-harmonic current distribution it computes: its
final statement `return (Z)` refers to the local name Z, which is only
assigned in the N == 2 branch, so the call fails for every frequency grid
(with NameError, or with LinAlgError already inside the loop when some
per-frequency system is singular). -/
theorem C10_mTiDn_raises_for_N_ge_3 (p : List ℝ) (fl : List ℝ)
    (hN : 3 ≤ truncInt (p.getD 7 0)) :
    mTiDn p fl = .error "NameError: name Z is not defined" := by
  have h3 : 3 ≤ TLMD_N p := by
    unfold TLMD_N pyN
    omega
  unfold mTiDn
  rw [if_neg (by omega), if_neg (by omega)]

/-- Witness for C10 at a parameter vector with N = 3. -/
theorem C10_witness :
    mTiDn [1, 1, 1, 1, 1, 1, 1, 3, 1, 1, 1] [0] =
      .error "NameError: name Z is not defined" :=
  C10_mTiDn_raises_for_N_ge_3 [1, 1, 1, 1, 1, 1, 1, 3, 1, 1, 1] [0]
    (by norm_num [List.getD_cons_succ, List.getD_cons_zero, truncInt])

/- ===================================================================
   Part 5: claim C2, the first-harmonic current-distribution system.
   =================================================================== -/

lemma RCO_zero (Rct Cdl : ℝ) : RCO Rct Cdl 0 = (Rct : ℂ) := by
  unfold RCO
  norm_num

lemma csqrt_zero : csqrt 0 = 0 := by
  unfold csqrt
  exact Complex.zero_cpow (by norm_num)

lemma RCS_zero (Rct Cdl Aw τd : ℝ) (h : (Rct : ℂ) ≠ 0) : RCS Rct Cdl Aw τd 0 = (Rct : ℂ) := by
  unfold RCS
  norm_num [csqrt_zero, Complex.tanh_zero, div_self h]

lemma RCD_zero (Rct Cdl Aw τd : ℝ) (h : (Rct : ℂ) ≠ 0) : RCD Rct Cdl Aw τd 0 = (Rct : ℂ) := by
  unfold RCD
  norm_num [csqrt_zero, Complex.tanh_zero, div_self h]

lemma mTiPoint_mulVec (Zu Rpore Req : ℂ) (N : ℕ)
    (hdet : IsUnit (mTiA Zu Rpore N).det) :
    (mTiA Zu Rpore N).mulVec (fun i => (mTiPoint Zu Rpore Req N).getD (i : ℕ) 0) =
      fun _ => Req := by
  have h1 : (fun i : Fin N => (mTiPoint Zu Rpore Req N).getD (i : ℕ) 0) =
      npSolve (mTiA Zu Rpore N) (fun _ => Req) := by
    funext i
    exact getD_finRange_map _ i
  rw [h1]
  exact npSolve_mulVec _ _ hdet

lemma mTiA_one_det (Zu Rpore : ℂ) (h : Zu + Rpore ≠ 0) : IsUnit ((mTiA Zu Rpore 1).det) := by
  rw [Matrix.det_fin_one]
  have he : mTiA Zu Rpore 1 0 0 = Zu + Rpore := by simp [mTiA]
  rw [he]
  exact isUnit_iff_ne_zero.mpr h

/-- C2: the current-distribution solvers mTi, mTiS and mTiD build, per
frequency, the N-by-N matrix whose diagonal entry in row i is Zu plus the
row term Rpore*(i+1), whose entry (i,j) for j below i is -(i-j)*Rpore plus
that row term, and whose remaining entries equal the row term alone (first
conjunct); and, whenever the matrix is invertible, the row they return is
the dense solution of that system with the constant right-hand side
Req_total = Req + Rpore, i.e. multiplying the matrix by the returned row
reproduces the constant vector (remaining conjuncts, one per variant). -/
theorem C2_current_distribution_solver :
    (∀ (Zu Rpore : ℂ) (N : ℕ) (i j : Fin N),
      mTiA Zu Rpore N i j =
        if i = j then Zu + (((i : ℕ) + 1 : ℕ) : ℂ) * Rpore
        else if (j : ℕ) < (i : ℕ) then
          -((((i : ℕ) - (j : ℕ) : ℕ)) : ℂ) * Rpore + (((i : ℕ) + 1 : ℕ) : ℂ) * Rpore
        else (((i : ℕ) + 1 : ℕ) : ℂ) * Rpore) ∧
    (∀ (p : List ℝ) (fr : ℝ),
      IsUnit ((mTiA (TLM_Zu p fr) ((TLM_Rpore p : ℝ) : ℂ) (TLM_N p)).det) →
      (mTiA (TLM_Zu p fr) ((TLM_Rpore p : ℝ) : ℂ) (TLM_N p)).mulVec
          (fun i => (mTi p fr).getD (i : ℕ) 0) =
        fun _ => ladderReq (TLM_Zu p fr) ((TLM_Rpore p : ℝ) : ℂ) (TLM_N p) +
          ((TLM_Rpore p : ℝ) : ℂ)) ∧
    (∀ (p : List ℝ) (fr : ℝ),
      IsUnit ((mTiA (TLMS_Zu p fr) ((TLMS_Rpore p : ℝ) : ℂ) (TLMS_N p)).det) →
      (mTiA (TLMS_Zu p fr) ((TLMS_Rpore p : ℝ) : ℂ) (TLMS_N p)).mulVec
          (fun i => (mTiS p fr).getD (i : ℕ) 0) =
        fun _ => ladderReq (TLMS_Zu p fr) ((TLMS_Rpore p : ℝ) : ℂ) (TLMS_N p) +
          ((TLMS_Rpore p : ℝ) : ℂ)) ∧
    (∀ (p : List ℝ) (fr : ℝ),
      IsUnit ((mTiA (TLMD_Zu p fr) ((TLMD_Rpore p : ℝ) : ℂ) (TLMD_N p)).det) →
      (mTiA (TLMD_Zu p fr) ((TLMD_Rpore p : ℝ) : ℂ) (TLMD_N p)).mulVec
          (fun i => (mTiD p fr).getD (i : ℕ) 0) =
        fun _ => ladderReq (TLMD_Zu p fr) ((TLMD_Rpore p : ℝ) : ℂ) (TLMD_N p) +
          ((TLMD_Rpore p : ℝ) : ℂ)) := by
  refine ⟨?_, ?_, ?_, ?_⟩
  · intro Zu Rpore N i j
    simp only [mTiA, Matrix.of_apply]
    rcases lt_trichotomy (j : ℕ) (i : ℕ) with h | h | h
    · have hne : ¬ i = j := by
        intro he
        rw [he] at h
        exact lt_irrefl _ h
      rw [if_pos h, if_neg hne, if_pos h]
    · have he : i = j := Fin.ext h.symm
      subst he
      rw [if_neg (lt_irrefl _), if_pos rfl, if_pos rfl]
    · have hne : ¬ i = j := by
        intro he
        rw [he] at h
        exact lt_irrefl _ h
      rw [if_neg (Nat.lt_asymm h), if_neg hne, if_neg hne, if_neg (Nat.lt_asymm h), zero_add]
  · intro p fr hdet
    unfold mTi
    exact mTiPoint_mulVec _ _ _ _ hdet
  · intro p fr hdet
    unfold mTiS
    exact mTiPoint_mulVec _ _ _ _ hdet
  · intro p fr hdet
    unfold mTiD
    exact mTiPoint_mulVec _ _ _ _ hdet

lemma TLM_N_ones : TLM_N [1, 1, 1, 1, 1, 1] = 1 := by
  norm_num [TLM_N, pyN, truncInt, List.getD_cons_succ, List.getD_cons_zero]

lemma TLM_Zu_ones : TLM_Zu [1, 1, 1, 1, 1, 1] 0 = 2 := by
  unfold TLM_Zu
  rw [TLM_N_ones]
  norm_num [RCO_zero, List.getD_cons_succ, List.getD_cons_zero]

lemma TLM_Rpore_ones : ((TLM_Rpore [1, 1, 1, 1, 1, 1] : ℝ) : ℂ) = 1 := by
  unfold TLM_Rpore
  rw [TLM_N_ones]
  norm_num [List.getD_cons_succ, List.getD_cons_zero]

lemma TLMS_N_ones : TLMS_N [1, 1, 1, 1, 1, 1, 1, 1] = 1 := by
  norm_num [TLMS_N, pyN, truncInt, List.getD_cons_succ, List.getD_cons_zero]

lemma TLMS_Zu_ones : TLMS_Zu [1, 1, 1, 1, 1, 1, 1, 1] 0 = 2 := by
  unfold TLMS_Zu
  rw [TLMS_N_ones]
  norm_num [RCO_zero, List.getD_cons_succ, List.getD_cons_zero]
  rw [RCS_zero 1 1 1 1 (by norm_num)]
  norm_num

lemma TLMS_Rpore_ones : ((TLMS_Rpore [1, 1, 1, 1, 1, 1, 1, 1] : ℝ) : ℂ) = 1 := by
  unfold TLMS_Rpore
  rw [TLMS_N_ones]
  norm_num [List.getD_cons_succ, List.getD_cons_zero]

lemma TLMD_N_ones : TLMD_N [1, 1, 1, 1, 1, 1, 1, 1] = 1 := by
  norm_num [TLMD_N, pyN, truncInt, List.getD_cons_succ, List.getD_cons_zero]

lemma TLMD_Zu_ones : TLMD_Zu [1, 1, 1, 1, 1, 1, 1, 1] 0 = 2 := by
  unfold TLMD_Zu
  rw [TLMD_N_ones]
  norm_num [RCO_zero, List.getD_cons_succ, List.getD_cons_zero]
  rw [RCD_zero 1 1 1 1 (by norm_num)]
  norm_num

lemma TLMD_Rpore_ones : ((TLMD_Rpore [1, 1, 1, 1, 1, 1, 1, 1] : ℝ) : ℂ) = 1 := by
  unfold TLMD_Rpore
  rw [TLMD_N_ones]
  norm_num [List.getD_cons_succ, List.getD_cons_zero]

/-- Witness for C2: the solve property of all three variants instantiated
at an all-ones parameter vector (N = 1) and frequency 0. -/
theorem C2_witness :
    ((mTiA (TLM_Zu [1, 1, 1, 1, 1, 1] 0) ((TLM_Rpore [1, 1, 1, 1, 1, 1] : ℝ) : ℂ)
        (TLM_N [1, 1, 1, 1, 1, 1])).mulVec
        (fun i => (mTi [1, 1, 1, 1, 1, 1] 0).getD (i : ℕ) 0) =
      fun _ => ladderReq (TLM_Zu [1, 1, 1, 1, 1, 1] 0)
        ((TLM_Rpore [1, 1, 1, 1, 1, 1] : ℝ) : ℂ) (TLM_N [1, 1, 1, 1, 1, 1]) +
        ((TLM_Rpore [1, 1, 1, 1, 1, 1] : ℝ) : ℂ)) ∧
    ((mTiA (TLMS_Zu [1, 1, 1, 1, 1, 1, 1, 1] 0)
        ((TLMS_Rpore [1, 1, 1, 1, 1, 1, 1, 1] : ℝ) : ℂ)
        (TLMS_N [1, 1, 1, 1, 1, 1, 1, 1])).mulVec
        (fun i => (mTiS [1, 1, 1, 1, 1, 1, 1, 1] 0).getD (i : ℕ) 0) =
      fun _ => ladderReq (TLMS_Zu [1, 1, 1, 1, 1, 1, 1, 1] 0)
        ((TLMS_Rpore [1, 1, 1, 1, 1, 1, 1, 1] : ℝ) : ℂ) (TLMS_N [1, 1, 1, 1, 1, 1, 1, 1]) +
        ((TLMS_Rpore [1, 1, 1, 1, 1, 1, 1, 1] : ℝ) : ℂ)) ∧
    ((mTiA (TLMD_Zu [1, 1, 1, 1, 1, 1, 1, 1] 0)
        ((TLMD_Rpore [1, 1, 1, 1, 1, 1, 1, 1] : ℝ) : ℂ)
        (TLMD_N [1, 1, 1, 1, 1, 1, 1, 1])).mulVec
        (fun i => (mTiD [1, 1, 1, 1, 1, 1, 1, 1] 0).getD (i : ℕ) 0) =
      fun _ => ladderReq (TLMD_Zu [1, 1, 1, 1, 1, 1, 1, 1] 0)
        ((TLMD_Rpore [1, 1, 1, 1, 1, 1, 1, 1] : ℝ) : ℂ) (TLMD_N [1, 1, 1, 1, 1, 1, 1, 1]) +
        ((TLMD_Rpore [1, 1, 1, 1, 1, 1, 1, 1] : ℝ) : ℂ)) := by
  refine ⟨C2_current_distribution_solver.2.1 _ 0 ?_,
    C2_current_distribution_solver.2.2.1 _ 0 ?_,
    C2_current_distribution_solver.2.2.2 _ 0 ?_⟩
  · rw [TLM_Zu_ones, TLM_Rpore_ones, TLM_N_ones]
    exact mTiA_one_det 2 1 (by norm_num)
  · rw [TLMS_Zu_ones, TLMS_Rpore_ones, TLMS_N_ones]
    exact mTiA_one_det 2 1 (by norm_num)
  · rw [TLMD_Zu_ones, TLMD_Rpore_ones, TLMD_N_ones]
    exact mTiA_one_det 2 1 (by norm_num)

/- ===================================================================
   Part 6: claim C9, the clamp guard of the hyperbolic/Bessel terms.
   =================================================================== -/

lemma sinh_add_mul_I_im (a b : ℝ) :
    (Complex.sinh ((a : ℂ) + (b : ℂ) * Complex.I)).im = Real.cosh a * Real.sin b := by
  rw [Complex.sinh_add, Complex.sinh_mul_I, Complex.cosh_mul_I]
  simp [Complex.add_im, Complex.mul_im, Complex.mul_re,
    Complex.sinh_ofReal_re, Complex.sinh_ofReal_im, Complex.cos_ofReal_re,
    Complex.cos_ofReal_im, Complex.cosh_ofReal_re, Complex.cosh_ofReal_im,
    Complex.sin_ofReal_re, Complex.sin_ofReal_im, Complex.I_re, Complex.I_im]

lemma sin_85_ne_zero : Real.sin 85 ≠ 0 := by
  intro h
  rcases Real.sin_eq_zero_iff.mp h with ⟨n, hn⟩
  rcases eq_or_ne n 0 with h0 | h0
  · rw [h0] at hn
    norm_num at hn
  · have hirr : Irrational ((n : ℝ) * Real.pi) := irrational_pi.int_mul h0
    rw [hn] at hirr
    exact (Nat.not_irrational 85) (by exact_mod_cast hirr)

/-- C9 counterexample: at the argument 85 + 85i the magnitude exceeds 100
(it is sqrt 14450, about 120), so the claim requires the sinh value to be
replaced by the sentinel 1e10; the code guard `x < 100` however compares
complex values lexicographically on the real part (85 < 100), keeps the
true sinh value, and that value differs from the sentinel. -/
theorem C9_counterexample_guard_not_magnitude :
    clampAt Complex.sinh (10 ^ 10) (85 + 85 * Complex.I) =
      Complex.sinh (85 + 85 * Complex.I) ∧
    100 < Complex.abs (85 + 85 * Complex.I) ∧
    Complex.sinh (85 + 85 * Complex.I) ≠ 10 ^ 10 := by
  have h1 : (85 : ℂ) + 85 * Complex.I = ((85 : ℝ) : ℂ) + ((85 : ℝ) : ℂ) * Complex.I := by
    norm_num
  refine ⟨?_, ?_, ?_⟩
  · have hcond : pyLt (85 + 85 * Complex.I) 100 := by
      left
      norm_num [Complex.add_re, Complex.mul_re, Complex.I_re, Complex.I_im]
    unfold clampAt
    rw [if_pos hcond]
  · have h : Complex.normSq (85 + 85 * Complex.I) = 14450 := by
      simp [Complex.normSq_apply]
      norm_num
    have h2 : Complex.abs (85 + 85 * Complex.I) = Real.sqrt 14450 := by
      rw [Complex.abs_apply, h]
    rw [h2]
    rw [show (100 : ℝ) = Real.sqrt (100 ^ 2) by rw [Real.sqrt_sq]; norm_num]
    apply Real.sqrt_lt_sqrt (by norm_num)
    norm_num
  · intro heq
    have him := congrArg Complex.im heq
    rw [h1, sinh_add_mul_I_im] at him
    have h10 : ((10 : ℂ) ^ 10).im = 0 := by
      have hc : ((10 : ℂ) ^ 10) = (((10 : ℝ) ^ 10 : ℝ) : ℂ) := by push_cast; ring
      rw [hc, Complex.ofReal_im]
    rw [h10] at him
    exact absurd him (mul_ne_zero (ne_of_gt (Real.cosh_pos 85)) sin_85_ne_zero)

/-- C9 amended: the clamp guard of the porous-electrode elements replaces
the hyperbolic (or Bessel) value by the sentinel exactly when the complex
argument is not below 100 in the NumPy lexicographic order, that is when
its real part exceeds 100 or equals 100 with nonnegative imaginary part;
otherwise the true value is kept.  The trigger is the real part of the
argument, not its magnitude. -/
theorem C9_clamp_guard_is_lexicographic (g : ℂ → ℂ) (s x : ℂ) :
    clampAt g s x = if 100 < x.re ∨ (x.re = 100 ∧ 0 ≤ x.im) then s else g x := by
  unfold clampAt pyLt
  simp only [Complex.re_ofNat, Complex.im_ofNat]
  by_cases h : x.re < 100 ∨ (x.re = 100 ∧ x.im < 0)
  · rw [if_pos h, if_neg]
    rcases h with h | ⟨he, hi⟩
    · intro hc
      rcases hc with hc | ⟨hc, _⟩
      · exact absurd hc (lt_asymm h)
      · rw [hc] at h
        exact lt_irrefl _ h
    · intro hc
      rcases hc with hc | ⟨_, hc⟩
      · rw [he] at hc
        exact lt_irrefl _ hc
      · exact absurd hi (not_lt.mpr hc)
  · rw [if_neg h, if_pos]
    push_neg at h
    rcases lt_or_eq_of_le h.1 with hlt | heq
    · exact Or.inl hlt
    · exact Or.inr ⟨heq.symm, h.2 heq.symm⟩

/- ===================================================================
   Part 7: claim C1, the second-harmonic dense-solve branch of
   TLMn / TLMSn / TLMDn.
   =================================================================== -/

lemma getLastD_eq_getD (l : List ℂ) : l.getLastD 0 = l.getD (l.length - 1) 0 := by
  rw [List.getLastD_eq_getLast?, List.getLast?_eq_getElem?, List.getD_eq_getElem?_getD]

lemma getD_take_eq (p : List ℝ) (n i : ℕ) (h : i < n) : (p.take n).getD i 0 = p.getD i 0 := by
  rw [List.getD_eq_getElem?_getD, List.getD_eq_getElem?_getD, List.getElem?_take_of_lt h]

lemma mTi_length (p : List ℝ) (fr : ℝ) : (mTi p fr).length = TLM_N p := by
  simp [mTi, mTiPoint]

lemma mTiS_length (p : List ℝ) (fr : ℝ) : (mTiS p fr).length = TLMS_N p := by
  simp [mTiS, mTiPoint]

lemma mTiD_length (p : List ℝ) (fr : ℝ) : (mTiD p fr).length = TLMD_N p := by
  simp [mTiD, mTiPoint]

lemma TLM_N_take (p : List ℝ) : TLM_N (p.take 6) = TLM_N p := by
  unfold TLM_N
  rw [getD_take_eq p 6 5 (by norm_num)]

lemma TLMS_N_take (p : List ℝ) : TLMS_N (p.take 8) = TLMS_N p := by
  unfold TLMS_N
  rw [getD_take_eq p 8 7 (by norm_num)]

lemma TLMD_N_take (p : List ℝ) : TLMD_N (p.take 8) = TLMD_N p := by
  unfold TLMD_N
  rw [getD_take_eq p 8 7 (by norm_num)]

lemma getD_map_list {l : List ℝ} (f : ℝ → ℂ) {k : ℕ} (hk : k < l.length) :
    (l.map f).getD k 0 = f (l.getD k 0) := by
  rw [List.getD_eq_getElem _ _ (by simpa using hk), List.getD_eq_getElem _ _ hk, List.getElem_map]

lemma TLMnPoint_spec (Rpore Z12t Z2 : ℂ) (N : ℕ) (Ii : List ℂ)
    (hN : 3 ≤ N) (hlen : Ii.length = N)
    (hdet : IsUnit (AxM Rpore Z12t N).det) :
    ∃ I2 : Fin N → ℂ,
      (AxM Rpore Z12t N).mulVec I2 =
        (fun i : Fin N =>
          -(if (i : ℕ) < N - 1 then (Ii.getD (N - 1) 0) ^ 2 - (Ii.getD (i : ℕ) 0) ^ 2 else 0) * Z2) ∧
      TLMnPoint Rpore Z12t Z2 N Ii = Z2 * (Ii.getD 0 0) ^ 2 + I2 ⟨N - 1, by omega⟩ * Z12t := by
  obtain ⟨m, rfl⟩ : ∃ m, N = m + 1 := ⟨N - 1, by omega⟩
  have hlast : Ii.getLastD 0 = Ii.getD (m + 1 - 1) 0 := by
    rw [getLastD_eq_getD Ii, hlen]
  have hb : (fun i : Fin (m + 1) =>
      -(if (i : ℕ) < m + 1 - 1 then (Ii.getD (m + 1 - 1) 0) ^ 2 - (Ii.getD (i : ℕ) 0) ^ 2 else 0) * Z2)
      = (fun i : Fin (m + 1) =>
      -(if (i : ℕ) < m then (Ii.getLastD 0) ^ 2 - (Ii.getD (i : ℕ) 0) ^ 2 else 0) * Z2) := by
    funext i
    rw [hlast]
    norm_num
  refine ⟨npSolve (AxM Rpore Z12t (m + 1))
    (fun i : Fin (m + 1) =>
      -(if (i : ℕ) < m then (Ii.getLastD 0) ^ 2 - (Ii.getD i 0) ^ 2 else 0) * Z2), ?_, ?_⟩
  · rw [hb]
    exact npSolve_mulVec _ _ hdet
  · rfl

/-- C1: in each of the three second-harmonic transmission-line solvers
(TLMn, TLMSn, TLMDn), for segment count N at least 3 and any frequency of
the grid, there is a vector I2 that solves the padded linear system whose
right-hand side is -b*Z2 with b[i] = I1[N-1]^2 - I1[i]^2 on the first N-1
rows (and 0 on the padded row), where I1 is the first-harmonic
current-fraction row, and the value the solver returns at that frequency is
the aggregate Z2*I1[0]^2 + I2[N-1]*Z12t with Z12t the unit impedance at the
doubled frequency.  The solve property is conditional on the per-frequency
matrix being invertible (a singular matrix makes np.linalg.solve raise). -/
theorem C1_second_harmonic_dense_solve :
    (∀ (p fl : List ℝ) (k N : ℕ), k < fl.length → TLM_N p = N → ∀ (hN3 : 3 ≤ N),
      IsUnit ((AxM ((TLM_Rpore p : ℝ) : ℂ) (TLMn_Z12t p (fl.getD k 0)) N).det) →
      ∃ I2 : Fin N → ℂ,
        (AxM ((TLM_Rpore p : ℝ) : ℂ) (TLMn_Z12t p (fl.getD k 0)) N).mulVec I2 =
          (fun i : Fin N =>
            -(if (i : ℕ) < N - 1
              then ((mTi (p.take 6) (fl.getD k 0)).getD (N - 1) 0) ^ 2 -
                ((mTi (p.take 6) (fl.getD k 0)).getD (i : ℕ) 0) ^ 2
              else 0) * TLMn_Z2 p (fl.getD k 0)) ∧
        (TLMn p fl).getD k 0 =
          TLMn_Z2 p (fl.getD k 0) * ((mTi (p.take 6) (fl.getD k 0)).getD 0 0) ^ 2 +
          I2 ⟨N - 1, by omega⟩ * TLMn_Z12t p (fl.getD k 0)) ∧
    (∀ (p fl : List ℝ) (k N : ℕ), k < fl.length → TLMS_N p = N → ∀ (hN3 : 3 ≤ N),
      IsUnit ((AxM ((TLMS_Rpore p : ℝ) : ℂ) (TLMSn_Z12t p (fl.getD k 0)) N).det) →
      ∃ I2 : Fin N → ℂ,
        (AxM ((TLMS_Rpore p : ℝ) : ℂ) (TLMSn_Z12t p (fl.getD k 0)) N).mulVec I2 =
          (fun i : Fin N =>
            -(if (i : ℕ) < N - 1
              then ((mTiS (p.take 8) (fl.getD k 0)).getD (N - 1) 0) ^ 2 -
                ((mTiS (p.take 8) (fl.getD k 0)).getD (i : ℕ) 0) ^ 2
              else 0) * TLMSn_Z2 p (fl.getD k 0)) ∧
        (TLMSn p fl).getD k 0 =
          TLMSn_Z2 p (fl.getD k 0) * ((mTiS (p.take 8) (fl.getD k 0)).getD 0 0) ^ 2 +
          I2 ⟨N - 1, by omega⟩ * TLMSn_Z12t p (fl.getD k 0)) ∧
    (∀ (p fl : List ℝ) (k N : ℕ), k < fl.length → TLMD_N p = N → ∀ (hN3 : 3 ≤ N),
      IsUnit ((AxM ((TLMD_Rpore p : ℝ) : ℂ) (TLMDn_Z12t p (fl.getD k 0)) N).det) →
      ∃ I2 : Fin N → ℂ,
        (AxM ((TLMD_Rpore p : ℝ) : ℂ) (TLMDn_Z12t p (fl.getD k 0)) N).mulVec I2 =
          (fun i : Fin N =>
            -(if (i : ℕ) < N - 1
              then ((mTiD (p.take 8) (fl.getD k 0)).getD (N - 1) 0) ^ 2 -
                ((mTiD (p.take 8) (fl.getD k 0)).getD (i : ℕ) 0) ^ 2
              else 0) * TLMDn_Z2 p (fl.getD k 0)) ∧
        (TLMDn p fl).getD k 0 =
          TLMDn_Z2 p (fl.getD k 0) * ((mTiD (p.take 8) (fl.getD k 0)).getD 0 0) ^ 2 +
          I2 ⟨N - 1, by omega⟩ * TLMDn_Z12t p (fl.getD k 0)) := by
  refine ⟨?_, ?_, ?_⟩
  · intro p fl k N hk hNeq hN hdet
    subst hNeq
    have hlen : (mTi (p.take 6) (fl.getD k 0)).length = TLM_N p := by
      rw [mTi_length, TLM_N_take]
    obtain ⟨I2, h1, h2⟩ := TLMnPoint_spec ((TLM_Rpore p : ℝ) : ℂ) (TLMn_Z12t p (fl.getD k 0))
      (TLMn_Z2 p (fl.getD k 0)) (TLM_N p) (mTi (p.take 6) (fl.getD k 0)) hN hlen hdet
    refine ⟨I2, h1, ?_⟩
    have hmap : (TLMn p fl).getD k 0 =
        (if TLM_N p = 1 then TLMn_Z2 p (fl.getD k 0)
         else if TLM_N p = 2 then
           TLMnN2 ((TLM_Rpore p : ℝ) : ℂ) (TLM_Zu p (fl.getD k 0)) (TLMn_Z12t p (fl.getD k 0))
             (TLMn_Z2 p (fl.getD k 0))
         else TLMnPoint ((TLM_Rpore p : ℝ) : ℂ) (TLMn_Z12t p (fl.getD k 0))
           (TLMn_Z2 p (fl.getD k 0)) (TLM_N p) (mTi (p.take 6) (fl.getD k 0))) := by
      unfold TLMn
      exact getD_map_list _ hk
    rw [hmap, if_neg (by omega), if_neg (by omega)]
    exact h2
  · intro p fl k N hk hNeq hN hdet
    subst hNeq
    have hlen : (mTiS (p.take 8) (fl.getD k 0)).length = TLMS_N p := by
      rw [mTiS_length, TLMS_N_take]
    obtain ⟨I2, h1, h2⟩ := TLMnPoint_spec ((TLMS_Rpore p : ℝ) : ℂ) (TLMSn_Z12t p (fl.getD k 0))
      (TLMSn_Z2 p (fl.getD k 0)) (TLMS_N p) (mTiS (p.take 8) (fl.getD k 0)) hN hlen hdet
    refine ⟨I2, h1, ?_⟩
    have hmap : (TLMSn p fl).getD k 0 =
        (if TLMS_N p = 1 then TLMSn_Z2 p (fl.getD k 0)
         else if TLMS_N p = 2 then
           TLMnN2 ((TLMS_Rpore p : ℝ) : ℂ) (TLMS_Zu p (fl.getD k 0)) (TLMSn_Z12t p (fl.getD k 0))
             (TLMSn_Z2 p (fl.getD k 0))
         else TLMnPoint ((TLMS_Rpore p : ℝ) : ℂ) (TLMSn_Z12t p (fl.getD k 0))
           (TLMSn_Z2 p (fl.getD k 0)) (TLMS_N p) (mTiS (p.take 8) (fl.getD k 0))) := by
      unfold TLMSn
      exact getD_map_list _ hk
    rw [hmap, if_neg (by omega), if_neg (by omega)]
    exact h2
  · intro p fl k N hk hNeq hN hdet
    subst hNeq
    have hlen : (mTiD (p.take 8) (fl.getD k 0)).length = TLMD_N p := by
      rw [mTiD_length, TLMD_N_take]
    obtain ⟨I2, h1, h2⟩ := TLMnPoint_spec ((TLMD_Rpore p : ℝ) : ℂ) (TLMDn_Z12t p (fl.getD k 0))
      (TLMDn_Z2 p (fl.getD k 0)) (TLMD_N p) (mTiD (p.take 8) (fl.getD k 0)) hN hlen hdet
    refine ⟨I2, h1, ?_⟩
    have hmap : (TLMDn p fl).getD k 0 =
        (if TLMD_N p = 1 then TLMDn_Z2 p (fl.getD k 0)
         else if TLMD_N p = 2 then
           TLMnN2 ((TLMD_Rpore p : ℝ) : ℂ) (TLMD_Zu p (fl.getD k 0)) (TLMDn_Z12t p (fl.getD k 0))
             (TLMDn_Z2 p (fl.getD k 0))
         else TLMnPoint ((TLMD_Rpore p : ℝ) : ℂ) (TLMDn_Z12t p (fl.getD k 0))
           (TLMDn_Z2 p (fl.getD k 0)) (TLMD_N p) (mTiD (p.take 8) (fl.getD k 0))) := by
      unfold TLMDn
      exact getD_map_list _ hk
    rw [hmap, if_neg (by omega), if_neg (by omega)]
    exact h2

lemma buildRows_three : buildRows 3 = [[2, 1], [1, 0]] := by rfl

lemma AxM_det_one_six_three : (AxM (1 : ℂ) 6 3).det = -133 := by
  rw [Matrix.det_fin_three]
  simp only [AxM, Matrix.of_apply, A2ent, Aent, A3ent, buildRows_three]
  norm_num [Fin.val_zero, Fin.val_one, Fin.val_two]

lemma TLM_N_c1 : TLM_N [3, 1, 1, 1, 1, 3, 1, 1] = 3 := by
  norm_num [TLM_N, pyN, truncInt, List.getD_cons_succ, List.getD_cons_zero]
  decide

lemma TLM_Rpore_c1 : ((TLM_Rpore [3, 1, 1, 1, 1, 3, 1, 1] : ℝ) : ℂ) = 1 := by
  unfold TLM_Rpore
  rw [TLM_N_c1]
  norm_num [List.getD_cons_succ, List.getD_cons_zero]

lemma TLMn_Z12t_c1 : TLMn_Z12t [3, 1, 1, 1, 1, 3, 1, 1] (([(0 : ℝ)]).getD 0 0) = 6 := by
  unfold TLMn_Z12t
  rw [TLM_N_c1]
  norm_num [RCO_zero, List.getD_cons_succ, List.getD_cons_zero]

lemma TLMS_N_c1 : TLMS_N [3, 1, 1, 1, 1, 1, 1, 3, 1, 1, 1] = 3 := by
  norm_num [TLMS_N, pyN, truncInt, List.getD_cons_succ, List.getD_cons_zero]
  decide

lemma TLMS_Rpore_c1 : ((TLMS_Rpore [3, 1, 1, 1, 1, 1, 1, 3, 1, 1, 1] : ℝ) : ℂ) = 1 := by
  unfold TLMS_Rpore
  rw [TLMS_N_c1]
  norm_num [List.getD_cons_succ, List.getD_cons_zero]

lemma TLMSn_Z12t_c1 : TLMSn_Z12t [3, 1, 1, 1, 1, 1, 1, 3, 1, 1, 1] (([(0 : ℝ)]).getD 0 0) = 6 := by
  unfold TLMSn_Z12t
  rw [TLMS_N_c1]
  have h1 : RCS (List.getD [3, 1, 1, 1, 1, 1, 1, 3, 1, 1, 1] 1 0 * ((3 : ℕ) : ℝ))
      (List.getD [3, 1, 1, 1, 1, 1, 1, 3, 1, 1, 1] 2 0 / ((3 : ℕ) : ℝ))
      (List.getD [3, 1, 1, 1, 1, 1, 1, 3, 1, 1, 1] 3 0 * ((3 : ℕ) : ℝ))
      (List.getD [3, 1, 1, 1, 1, 1, 1, 3, 1, 1, 1] 4 0)
      (2 * (([(0 : ℝ)]).getD 0 0)) = RCS 3 (1 / 3) 3 1 0 := by
    norm_num [List.getD_cons_succ, List.getD_cons_zero]
  rw [h1, RCS_zero 3 (1 / 3) 3 1 (by norm_num)]
  norm_num [RCO_zero, List.getD_cons_succ, List.getD_cons_zero]

lemma TLMD_N_c1 : TLMD_N [3, 1, 1, 1, 1, 1, 1, 3, 1, 1, 1] = 3 := by
  norm_num [TLMD_N, pyN, truncInt, List.getD_cons_succ, List.getD_cons_zero]
  decide

lemma TLMD_Rpore_c1 : ((TLMD_Rpore [3, 1, 1, 1, 1, 1, 1, 3, 1, 1, 1] : ℝ) : ℂ) = 1 := by
  unfold TLMD_Rpore
  rw [TLMD_N_c1]
  norm_num [List.getD_cons_succ, List.getD_cons_zero]

lemma TLMDn_Z12t_c1 : TLMDn_Z12t [3, 1, 1, 1, 1, 1, 1, 3, 1, 1, 1] (([(0 : ℝ)]).getD 0 0) = 6 := by
  unfold TLMDn_Z12t
  rw [TLMD_N_c1]
  have h1 : RCD (List.getD [3, 1, 1, 1, 1, 1, 1, 3, 1, 1, 1] 1 0 * ((3 : ℕ) : ℝ))
      (List.getD [3, 1, 1, 1, 1, 1, 1, 3, 1, 1, 1] 2 0 / ((3 : ℕ) : ℝ))
      (List.getD [3, 1, 1, 1, 1, 1, 1, 3, 1, 1, 1] 3 0 * ((3 : ℕ) : ℝ))
      (List.getD [3, 1, 1, 1, 1, 1, 1, 3, 1, 1, 1] 4 0)
      (2 * (([(0 : ℝ)]).getD 0 0)) = RCD 3 (1 / 3) 3 1 0 := by
    norm_num [List.getD_cons_succ, List.getD_cons_zero]
  rw [h1, RCD_zero 3 (1 / 3) 3 1 (by norm_num)]
  norm_num [RCO_zero, List.getD_cons_succ, List.getD_cons_zero]

/-- Witness for C1: the three solver statements instantiated at N = 3
parameter vectors (pore resistance 3, all other physical parameters 1 and
surface resistance 3 for TLMn) over the one-point frequency grid [0], where
the system matrix evaluates to AxM 1 6 3 with determinant -133. -/
theorem C1_witness :
    (∃ I2 : Fin 3 → ℂ,
      (AxM ((TLM_Rpore [3, 1, 1, 1, 1, 3, 1, 1] : ℝ) : ℂ)
          (TLMn_Z12t [3, 1, 1, 1, 1, 3, 1, 1] (([(0 : ℝ)]).getD 0 0)) 3).mulVec I2 =
        (fun i : Fin 3 =>
          -(if (i : ℕ) < 3 - 1
            then ((mTi ([3, 1, 1, 1, 1, 3, 1, 1].take 6) (([(0 : ℝ)]).getD 0 0)).getD (3 - 1) 0) ^ 2 -
              ((mTi ([3, 1, 1, 1, 1, 3, 1, 1].take 6) (([(0 : ℝ)]).getD 0 0)).getD (i : ℕ) 0) ^ 2
            else 0) * TLMn_Z2 [3, 1, 1, 1, 1, 3, 1, 1] (([(0 : ℝ)]).getD 0 0)) ∧
      (TLMn [3, 1, 1, 1, 1, 3, 1, 1] [(0 : ℝ)]).getD 0 0 =
        TLMn_Z2 [3, 1, 1, 1, 1, 3, 1, 1] (([(0 : ℝ)]).getD 0 0) *
          ((mTi ([3, 1, 1, 1, 1, 3, 1, 1].take 6) (([(0 : ℝ)]).getD 0 0)).getD 0 0) ^ 2 +
        I2 ⟨3 - 1, by norm_num⟩ * TLMn_Z12t [3, 1, 1, 1, 1, 3, 1, 1] (([(0 : ℝ)]).getD 0 0)) ∧
    (∃ I2 : Fin 3 → ℂ,
      (AxM ((TLMS_Rpore [3, 1, 1, 1, 1, 1, 1, 3, 1, 1, 1] : ℝ) : ℂ)
          (TLMSn_Z12t [3, 1, 1, 1, 1, 1, 1, 3, 1, 1, 1] (([(0 : ℝ)]).getD 0 0)) 3).mulVec I2 =
        (fun i : Fin 3 =>
          -(if (i : ℕ) < 3 - 1
            then ((mTiS ([3, 1, 1, 1, 1, 1, 1, 3, 1, 1, 1].take 8) (([(0 : ℝ)]).getD 0 0)).getD (3 - 1) 0) ^ 2 -
              ((mTiS ([3, 1, 1, 1, 1, 1, 1, 3, 1, 1, 1].take 8) (([(0 : ℝ)]).getD 0 0)).getD (i : ℕ) 0) ^ 2
            else 0) * TLMSn_Z2 [3, 1, 1, 1, 1, 1, 1, 3, 1, 1, 1] (([(0 : ℝ)]).getD 0 0)) ∧
      (TLMSn [3, 1, 1, 1, 1, 1, 1, 3, 1, 1, 1] [(0 : ℝ)]).getD 0 0 =
        TLMSn_Z2 [3, 1, 1, 1, 1, 1, 1, 3, 1, 1, 1] (([(0 : ℝ)]).getD 0 0) *
          ((mTiS ([3, 1, 1, 1, 1, 1, 1, 3, 1, 1, 1].take 8) (([(0 : ℝ)]).getD 0 0)).getD 0 0) ^ 2 +
        I2 ⟨3 - 1, by norm_num⟩ *
          TLMSn_Z12t [3, 1, 1, 1, 1, 1, 1, 3, 1, 1, 1] (([(0 : ℝ)]).getD 0 0)) ∧
    (∃ I2 : Fin 3 → ℂ,
      (AxM ((TLMD_Rpore [3, 1, 1, 1, 1, 1, 1, 3, 1, 1, 1] : ℝ) : ℂ)
          (TLMDn_Z12t [3, 1, 1, 1, 1, 1, 1, 3, 1, 1, 1] (([(0 : ℝ)]).getD 0 0)) 3).mulVec I2 =
        (fun i : Fin 3 =>
          -(if (i : ℕ) < 3 - 1
            then ((mTiD ([3, 1, 1, 1, 1, 1, 1, 3, 1, 1, 1].take 8) (([(0 : ℝ)]).getD 0 0)).getD (3 - 1) 0) ^ 2 -
              ((mTiD ([3, 1, 1, 1, 1, 1, 1, 3, 1, 1, 1].take 8) (([(0 : ℝ)]).getD 0 0)).getD (i : ℕ) 0) ^ 2
            else 0) * TLMDn_Z2 [3, 1, 1, 1, 1, 1, 1, 3, 1, 1, 1] (([(0 : ℝ)]).getD 0 0)) ∧
      (TLMDn [3, 1, 1, 1, 1, 1, 1, 3, 1, 1, 1] [(0 : ℝ)]).getD 0 0 =
        TLMDn_Z2 [3, 1, 1, 1, 1, 1, 1, 3, 1, 1, 1] (([(0 : ℝ)]).getD 0 0) *
          ((mTiD ([3, 1, 1, 1, 1, 1, 1, 3, 1, 1, 1].take 8) (([(0 : ℝ)]).getD 0 0)).getD 0 0) ^ 2 +
        I2 ⟨3 - 1, by norm_num⟩ *
          TLMDn_Z12t [3, 1, 1, 1, 1, 1, 1, 3, 1, 1, 1] (([(0 : ℝ)]).getD 0 0)) := by
  refine ⟨C1_second_harmonic_dense_solve.1 [3, 1, 1, 1, 1, 3, 1, 1] [(0 : ℝ)] 0 3
      (by norm_num) TLM_N_c1 (by norm_num) ?_,
    C1_second_harmonic_dense_solve.2.1 [3, 1, 1, 1, 1, 1, 1, 3, 1, 1, 1] [(0 : ℝ)] 0 3
      (by norm_num) TLMS_N_c1 (by norm_num) ?_,
    C1_second_harmonic_dense_solve.2.2 [3, 1, 1, 1, 1, 1, 1, 3, 1, 1, 1] [(0 : ℝ)] 0 3
      (by norm_num) TLMD_N_c1 (by norm_num) ?_⟩
  · rw [TLM_Rpore_c1, TLMn_Z12t_c1, AxM_det_one_six_three]
    exact isUnit_iff_ne_zero.mpr (by norm_num)
  · rw [TLMS_Rpore_c1, TLMSn_Z12t_c1, AxM_det_one_six_three]
    exact isUnit_iff_ne_zero.mpr (by norm_num)
  · rw [TLMD_Rpore_c1, TLMDn_Z12t_c1, AxM_det_one_six_three]
    exact isUnit_iff_ne_zero.mpr (by norm_num)

/- ===================================================================
   Part 8: claim C7, the N = 2 closed form against the general solve.
   =================================================================== -/

lemma buildRows_two : buildRows 2 = [[1]] := by rfl

lemma mTiA2_00 (Zu Rpore : ℂ) : mTiA Zu Rpore 2 0 0 = Zu + Rpore := by
  simp only [mTiA, Matrix.of_apply]
  norm_num

lemma mTiA2_01 (Zu Rpore : ℂ) : mTiA Zu Rpore 2 0 1 = Rpore := by
  simp only [mTiA, Matrix.of_apply]
  norm_num

lemma mTiA2_10 (Zu Rpore : ℂ) : mTiA Zu Rpore 2 1 0 = Rpore := by
  simp only [mTiA, Matrix.of_apply]
  norm_num
  ring

lemma mTiA2_11 (Zu Rpore : ℂ) : mTiA Zu Rpore 2 1 1 = Zu + 2 * Rpore := by
  simp only [mTiA, Matrix.of_apply]
  norm_num

lemma AxM2_00 (Rpore Z12t : ℂ) : AxM Rpore Z12t 2 0 0 = Z12t + Rpore := by
  simp only [AxM, Matrix.of_apply, A2ent, Aent, A3ent, buildRows_two]
  norm_num

lemma AxM2_01 (Rpore Z12t : ℂ) : AxM Rpore Z12t 2 0 1 = -Z12t := by
  simp only [AxM, Matrix.of_apply, A2ent, Aent, A3ent, buildRows_two]
  norm_num

lemma AxM2_10 (Rpore Z12t : ℂ) : AxM Rpore Z12t 2 1 0 = 1 := by
  simp only [AxM, Matrix.of_apply, A2ent, Aent, A3ent, buildRows_two]
  norm_num

lemma AxM2_11 (Rpore Z12t : ℂ) : AxM Rpore Z12t 2 1 1 = 1 := by
  simp only [AxM, Matrix.of_apply, A2ent, Aent, A3ent, buildRows_two]
  norm_num

/-- C7: for N = 2 the general dense-solve branch of the second-harmonic
solver (coupling-matrix construction, solve of Ax I2 = -b Z2, aggregation
Z2 I1[0]^2 + I2[N-1] Z12t) applied to the first-harmonic current fractions
of the two-segment ladder gives exactly the closed-form N = 2 shortcut
(Z1^2/(2 Z1+Rpore)^2 + (Z12t Rpore+Rpore^2)/((2 Z12t+Rpore)(2 Z1+Rpore)))
Z2, for every choice of per-frequency values with the relevant denominators
and determinants nonzero. -/
theorem C7_N2_shortcut_matches_general_solve (Zu Rpore Z12t Z2 : ℂ)
    (h1 : Zu ≠ 0) (h2 : Zu + Rpore ≠ 0) (h3 : 2 * Zu + Rpore ≠ 0)
    (h4 : 2 * Z12t + Rpore ≠ 0) (h5 : Zu ^ 2 + 3 * Zu * Rpore + Rpore ^ 2 ≠ 0) :
    TLMnPoint Rpore Z12t Z2 2 (mTiPoint Zu Rpore (ladderReq Zu Rpore 2 + Rpore) 2) =
      TLMnN2 Rpore Zu Z12t Z2 := by
  have hReq : ladderReq Zu Rpore 2 + Rpore =
      (Zu ^ 2 + 3 * Zu * Rpore + Rpore ^ 2) / (2 * Zu + Rpore) := by
    unfold ladderReq ladderStep
    rw [Function.iterate_one]
    have hd : 1 / (Zu + Rpore) + 1 / Zu ≠ 0 := by
      have hsum : 1 / (Zu + Rpore) + 1 / Zu = (2 * Zu + Rpore) / ((Zu + Rpore) * Zu) := by
        field_simp
        ring
      rw [hsum]
      exact div_ne_zero h3 (mul_ne_zero h2 h1)
    field_simp
    field_simp at hd
    field_simp [hd]
    ring
  set Ii := mTiPoint Zu Rpore (ladderReq Zu Rpore 2 + Rpore) 2 with hIidef
  have hsol : npSolve (mTiA Zu Rpore 2)
      (fun _ => ladderReq Zu Rpore 2 + Rpore) =
      ![(Zu + Rpore) / (2 * Zu + Rpore), Zu / (2 * Zu + Rpore)] := by
    rw [hReq]
    apply npSolve_eq
    · rw [Matrix.det_fin_two, mTiA2_00, mTiA2_01, mTiA2_10, mTiA2_11]
      apply isUnit_iff_ne_zero.mpr
      intro hc
      apply h5
      rw [← hc]
      ring
    · funext i
      fin_cases i
      · simp [Matrix.mulVec, Matrix.dotProduct, Fin.sum_univ_two, mTiA2_00, mTiA2_01]
        field_simp
        ring
      · simp [Matrix.mulVec, Matrix.dotProduct, Fin.sum_univ_two, mTiA2_10, mTiA2_11]
        field_simp
        ring
  have hIi0 : Ii.getD 0 0 = (Zu + Rpore) / (2 * Zu + Rpore) := by
    rw [hIidef]
    have := getD_finRange_map
      (npSolve (mTiA Zu Rpore 2) (fun _ => ladderReq Zu Rpore 2 + Rpore)) (0 : Fin 2)
    rw [show ((0 : Fin 2) : ℕ) = 0 from rfl] at this
    unfold mTiPoint
    rw [this, hsol]
    rfl
  have hIi1 : Ii.getD 1 0 = Zu / (2 * Zu + Rpore) := by
    rw [hIidef]
    have := getD_finRange_map
      (npSolve (mTiA Zu Rpore 2) (fun _ => ladderReq Zu Rpore 2 + Rpore)) (1 : Fin 2)
    rw [show ((1 : Fin 2) : ℕ) = 1 from rfl] at this
    unfold mTiPoint
    rw [this, hsol]
    rfl
  have hIiLast : Ii.getLastD 0 = Zu / (2 * Zu + Rpore) := by
    rw [getLastD_eq_getD]
    have hlen : Ii.length = 2 := by
      rw [hIidef]
      simp [mTiPoint]
    rw [hlen]
    exact hIi1
  have h4x : Rpore + 2 * Z12t ≠ 0 := by
    intro hc
    apply h4
    rw [← hc]
    ring
  have hbval : (fun i : Fin 2 =>
      -(if (i : ℕ) < 1 then (Ii.getLastD 0) ^ 2 - (Ii.getD (i : ℕ) 0) ^ 2 else 0) * Z2) =
      (fun i : Fin 2 =>
      -(if (i : ℕ) < 1 then (Zu / (2 * Zu + Rpore)) ^ 2 - ((Zu + Rpore) / (2 * Zu + Rpore)) ^ 2
        else 0) * Z2) := by
    funext i
    fin_cases i
    · simp only [Fin.mk_zero, Fin.val_zero, Nat.zero_lt_one, if_pos]
      rw [hIiLast, hIi0]
    · simp
  have hrhs : npSolve (AxM Rpore Z12t 2)
      (fun i : Fin 2 =>
        -(if (i : ℕ) < 1 then (Zu / (2 * Zu + Rpore)) ^ 2 -
          ((Zu + Rpore) / (2 * Zu + Rpore)) ^ 2 else 0) * Z2) =
      ![Rpore * Z2 / ((2 * Zu + Rpore) * (Rpore + 2 * Z12t)),
        -(Rpore * Z2 / ((2 * Zu + Rpore) * (Rpore + 2 * Z12t)))] := by
    apply npSolve_eq
    · rw [Matrix.det_fin_two, AxM2_00, AxM2_01, AxM2_10, AxM2_11]
      apply isUnit_iff_ne_zero.mpr
      intro hc
      apply h4
      rw [← hc]
      ring
    · funext i
      fin_cases i
      · simp [Matrix.mulVec, Matrix.dotProduct, Fin.sum_univ_two, AxM2_00, AxM2_01]
        field_simp
        ring
      · simp [Matrix.mulVec, Matrix.dotProduct, Fin.sum_univ_two, AxM2_10, AxM2_11]
  have hfinal : TLMnPoint Rpore Z12t Z2 2 Ii =
      Z2 * (Ii.getD 0 0) ^ 2 +
      (npSolve (AxM Rpore Z12t 2)
        (fun i : Fin 2 =>
          -(if (i : ℕ) < 1 then (Ii.getLastD 0) ^ 2 - (Ii.getD (i : ℕ) 0) ^ 2 else 0) * Z2))
        (Fin.last 1) * Z12t := rfl
  rw [hfinal, hbval, hrhs, hIi0]
  have hlast1 : (![Rpore * Z2 / ((2 * Zu + Rpore) * (Rpore + 2 * Z12t)),
      -(Rpore * Z2 / ((2 * Zu + Rpore) * (Rpore + 2 * Z12t)))] : Fin 2 → ℂ) (Fin.last 1) =
      -(Rpore * Z2 / ((2 * Zu + Rpore) * (Rpore + 2 * Z12t))) := rfl
  rw [hlast1]
  unfold TLMnN2
  field_simp
  ring

/-- Witness for C7 at Zu = Rpore = Z12t = Z2 = 1. -/
theorem C7_witness :
    TLMnPoint 1 1 1 2 (mTiPoint 1 1 (ladderReq 1 1 2 + 1) 2) = TLMnN2 1 1 1 1 :=
  C7_N2_shortcut_matches_general_solve 1 1 1 1 (by norm_num) (by norm_num) (by norm_num)
    (by norm_num) (by norm_num)
